import Mathlib

/-!
Verification of the Inventory Costing Engine core of the QuantumFinanceAI
repository (Django ERP).  The Python source under `src/core/` is shallowly
embedded below:

* `src/core/utils.py  calculate_inventory_valuation`  — the per-product ledger
  replay (weighted moving average costing);
* `src/core/utils.py  generate_reorder_suggestions`   — reorder advisor;
* `src/core/business_views.py  abc_analysis`          — ABC classifier.

Python `Decimal` quantities and costs are embedded as `ℚ` (exact arithmetic,
as the claims under scrutiny are stated over exact arithmetic).  Stateful
Django ORM queries become explicit lists: a product's ledger is the
chronologically ordered list of its `StockMovement` rows.
-/

namespace QuantumFinanceAI

/-- A `StockMovement` ledger row (src/core/models.py, class StockMovement).
Only the fields read by the costing engine and the reorder advisor are kept:
`movement_type` (a free-form string in the embedding, since the engine must
also be examined on unrecognized types), `quantity` and `unit_cost`. -/
structure StockMovement where
  movement_type : String
  quantity : ℚ
  unit_cost : ℚ
deriving Repr, DecidableEq

/-- The four movement types the replay loop treats as inflows
(src/core/utils.py line 120). -/
def inflowTypes : List String :=
  ["receipt", "production_receipt", "transfer_in", "adjustment"]

/-- The three movement types documented as outflows
(src/core/models.py MOVEMENT_TYPES; src/core/utils.py comment "Outflows"). -/
def outflowTypes : List String :=
  ["issue", "transfer_out", "production_issue"]

/-- All seven recognized movement types (src/core/models.py MOVEMENT_TYPES). -/
def recognizedTypes : List String := inflowTypes ++ outflowTypes

/-- One iteration of the replay loop of `calculate_inventory_valuation`
(src/core/utils.py lines 119-132), acting on the accumulator
`(running_qty, running_value)`.

The Python loop is an if/else: membership in the inflow list selects the
inflow update, and *every* other movement type falls into the `else` branch,
which deducts the quantity at the current average cost when
`running_qty >= quantity` and does nothing otherwise.  The local variable
`unit_cost` assigned inside the inflow branch is dead (never read), so it is
omitted. -/
def replayStep (acc : ℚ × ℚ) (m : StockMovement) : ℚ × ℚ :=
  if m.movement_type ∈ inflowTypes then
    (acc.1 + m.quantity, acc.2 + m.quantity * m.unit_cost)
  else
    if acc.1 ≥ m.quantity then
      let avg := if acc.1 > 0 then acc.2 / acc.1 else 0
      (acc.1 - m.quantity, acc.2 - m.quantity * avg)
    else
      acc

/-- Full replay of a product's ledger from the zero accumulator
(src/core/utils.py lines 116-132). -/
def replay (ledger : List StockMovement) : ℚ × ℚ :=
  ledger.foldl replayStep (0, 0)

/-- The per-product snapshot built from the replay result
(src/core/utils.py lines 134-141): `current_qty`, `average_cost`
(`running_value / running_qty` when positive, else 0) and `total_value`. -/
structure CostingSnapshot where
  current_qty : ℚ
  average_cost : ℚ
  total_value : ℚ
deriving Repr, DecidableEq

/-- `calculate_inventory_valuation` restricted to a single product's ledger:
replay the movements and package the snapshot fields exactly as the Python
dict is filled (src/core/utils.py lines 134-141). -/
def calculate_inventory_valuation (ledger : List StockMovement) : CostingSnapshot :=
  let s := replay ledger
  { current_qty := s.1
  , average_cost := if s.1 > 0 then s.2 / s.1 else 0
  , total_value := s.2 }

end QuantumFinanceAI

namespace QuantumFinanceAI

/-! ### Reorder advisor (src/core/utils.py, generate_reorder_suggestions) -/

/-- A `Product` row with the fields read by `generate_reorder_suggestions`
(src/core/models.py class Product), together with its movement ledger (the
`StockMovement` rows of that tenant/product). `reorder_point` is an
`IntegerField` in the model; it is embedded as `ℤ`. -/
structure Product where
  sku : String
  product_name : String
  reorder_point : ℤ
  standard_cost : ℚ
  is_active : Bool
  ledger : List StockMovement
deriving Repr

/-- The stock figure the reorder advisor uses: the plain SQL
`Sum('quantity')` over all of the product's movement rows
(src/core/utils.py lines 250-253); `0` for an empty ledger. -/
def reorder_current_stock (ledger : List StockMovement) : ℚ :=
  (ledger.map (·.quantity)).sum

/-- One emitted reorder suggestion (src/core/utils.py lines 264-274);
the supplier lookup is independent of the claims and is omitted. -/
structure ReorderSuggestion where
  product_sku : String
  current_stock : ℚ
  reorder_point : ℤ
  shortage : ℚ
  suggested_order_qty : ℚ
  estimated_cost : ℚ
  urgency : String
deriving Repr, DecidableEq

/-- The body of the per-product loop of `generate_reorder_suggestions`
(src/core/utils.py lines 249-274): a suggestion is appended exactly when
`current_stock <= reorder_point`. -/
def suggestFor (p : Product) : Option ReorderSuggestion :=
  let current_stock := reorder_current_stock p.ledger
  if current_stock ≤ (p.reorder_point : ℚ) then
    let shortage : ℚ := (p.reorder_point : ℚ) - current_stock
    let suggested_qty : ℚ := max shortage ((p.reorder_point : ℚ) * 2)
    some
      { product_sku := p.sku
      , current_stock := current_stock
      , reorder_point := p.reorder_point
      , shortage := shortage
      , suggested_order_qty := suggested_qty
      , estimated_cost := suggested_qty * p.standard_cost
      , urgency := if current_stock ≤ 0 then "HIGH" else "MEDIUM" }
  else
    none

/-- Sort key of the final `suggestions.sort(..., reverse=True)`
(src/core/utils.py line 277): descending on `(urgency == 'HIGH', abs(shortage))`.
`mergeSort le` sorts ascending and is stable; Python's stable descending
sort is matched by stable ascending sort with the "greater-or-equal key"
relation. -/
def suggestionLe (a b : ReorderSuggestion) : Bool :=
  decide (((if b.urgency = "HIGH" then (1 : ℚ) else 0), |b.shortage|)
    ≤ ((if a.urgency = "HIGH" then (1 : ℚ) else 0), |a.shortage|))

/-- `generate_reorder_suggestions` over the list of the tenant's products
(src/core/utils.py lines 243-279): keep active products, run the loop body,
sort by urgency then shortage magnitude, descending. -/
def generate_reorder_suggestions (products : List Product) : List ReorderSuggestion :=
  ((products.filter (·.is_active)).filterMap suggestFor).mergeSort suggestionLe

/-! ### ABC classifier (src/core/business_views.py, abc_analysis)

The endpoint normalizes the valuation output into rows
`{sku, product_name, total_value, quantity}`; only `sku` and `total_value`
drive the sorting and the classification, so a row is embedded as
`AbcRow`. -/

/-- One normalized per-SKU valuation row fed to the ABC classifier
(src/core/business_views.py lines 757-776). -/
structure AbcRow where
  sku : String
  total_value : ℚ
deriving Repr, DecidableEq

/-- One output entry of `abc_analysis`
(src/core/business_views.py lines 869-876).  The Python code rounds the
reported `cumulative_value_pct` to two decimals for display; the exact value
is kept here, since the classification is computed from the unrounded one. -/
structure AbcEntry where
  sku : String
  inventory_value : ℚ
  classification : String
  cumulative_value_pct : ℚ
deriving Repr, DecidableEq

/-- The three response shapes of the `abc_analysis` endpoint:
the status-400 "no per-SKU valuation data" error (empty normalized rows,
src/core/business_views.py lines 823-826), the zero-total warning response
whose `abc_analysis` list is empty and whose class summary is all zeroes
(lines 842-851), and the normal classified response. -/
inductive AbcResult where
  | noData : AbcResult
  | notPerformed (total_items : ℕ) : AbcResult
  | performed (entries : List AbcEntry) : AbcResult
deriving Repr, DecidableEq

/-- Sort predicate of `sorted(valuation.items(), key=total_value, reverse=True)`
(src/core/business_views.py lines 831-835): stable descending by value,
expressed as the ascending relation fed to the stable `mergeSort`. -/
def abcLe (a b : AbcRow) : Bool :=
  decide (b.total_value ≤ a.total_value)

/-- The classification ladder of the loop body
(src/core/business_views.py lines 862-867). -/
def abcClassify (cumulative_pct : ℚ) : String :=
  if cumulative_pct ≤ 80 then "A"
  else if cumulative_pct ≤ 95 then "B"
  else "C"

/-- The classification loop (src/core/business_views.py lines 854-876):
walk the sorted rows accumulating `cumulative_value`, computing
`cumulative_pct = cumulative_value / max(total_value, 1) * 100` — note the
`max(total_value, 1)` denominator in the source — and classifying. -/
def abcScan (total : ℚ) (cumulative : ℚ) : List AbcRow → List AbcEntry
  | [] => []
  | r :: rs =>
    let cumulative2 := cumulative + r.total_value
    let pct := cumulative2 / max total 1 * 100
    { sku := r.sku
    , inventory_value := r.total_value
    , classification := abcClassify pct
    , cumulative_value_pct := pct } :: abcScan total cumulative2 rs

/-- The `abc_analysis` endpoint after normalization
(src/core/business_views.py lines 823-886): reject empty row sets, sort
descending by value, sum the grand total, return the zero-total warning when
the total is 0, and otherwise classify every row. -/
def abc_analysis (rows : List AbcRow) : AbcResult :=
  if rows.isEmpty then .noData
  else
    let sorted := rows.mergeSort abcLe
    let total := (sorted.map (·.total_value)).sum
    if total = 0 then .notPerformed sorted.length
    else .performed (abcScan total 0 sorted)

/-- Written from the spec's ABC contract (§4.3), for comparison with the
code: the class assigned from the cumulative value as a percentage of the
grand total of all products' values. -/
def specGrandTotalClass (cumulative total : ℚ) : String :=
  if cumulative / total * 100 ≤ 80 then "A"
  else if cumulative / total * 100 ≤ 95 then "B"
  else "C"

/-- The classifier the code actually implements, phrased per-entry: the
cumulative percentage is taken of `max(total, 1)`, not of the grand total
itself (they agree whenever the grand total is at least 1). -/
def maxOneTotalClass (cumulative total : ℚ) : String :=
  abcClassify (cumulative / max total 1 * 100)

end QuantumFinanceAI

namespace QuantumFinanceAI

/-! ### Helper lemmas about the replay loop -/

theorem replayStep_inflow (acc : ℚ × ℚ) (m : StockMovement)
    (h : m.movement_type ∈ inflowTypes) :
    replayStep acc m = (acc.1 + m.quantity, acc.2 + m.quantity * m.unit_cost) := by
  simp [replayStep, h]

theorem replayStep_outflow_exec (acc : ℚ × ℚ) (m : StockMovement)
    (h : m.movement_type ∉ inflowTypes) (hq : m.quantity ≤ acc.1) :
    replayStep acc m
      = (acc.1 - m.quantity,
         acc.2 - m.quantity * (if 0 < acc.1 then acc.2 / acc.1 else 0)) := by
  simp [replayStep, h, hq]

theorem replayStep_outflow_skip (acc : ℚ × ℚ) (m : StockMovement)
    (h : m.movement_type ∉ inflowTypes) (hq : acc.1 < m.quantity) :
    replayStep acc m = acc := by
  simp [replayStep, h, not_le.mpr hq]

theorem outflow_not_inflow {t : String} (h : t ∈ outflowTypes) :
    t ∉ inflowTypes := by
  simp only [outflowTypes, List.mem_cons, List.not_mem_nil, or_false] at h
  rcases h with rfl | rfl | rfl <;> decide

theorem inflow_recognized {t : String} (h : t ∈ inflowTypes) :
    t ∈ recognizedTypes :=
  List.mem_append_left _ h

theorem foldl_replayStep_qty_nonneg (l : List StockMovement) :
    ∀ acc : ℚ × ℚ, 0 ≤ acc.1 → (∀ m ∈ l, 0 ≤ m.quantity) →
      0 ≤ (l.foldl replayStep acc).1 := by
  induction l with
  | nil => intro acc hacc _; simpa using hacc
  | cons m ms ih =>
    intro acc hacc hq
    simp only [List.foldl_cons]
    refine ih _ ?_ (fun x hx => hq x (List.mem_cons_of_mem _ hx))
    have hm : 0 ≤ m.quantity := hq m (List.mem_cons_self _ _)
    by_cases hin : m.movement_type ∈ inflowTypes
    · rw [replayStep_inflow _ _ hin]; dsimp only; linarith
    · by_cases hge : m.quantity ≤ acc.1
      · rw [replayStep_outflow_exec _ _ hin hge]; dsimp only; linarith
      · rw [replayStep_outflow_skip _ _ hin (not_le.mp hge)]; exact hacc

theorem foldl_replayStep_inflow_sum (l : List StockMovement) :
    ∀ acc : ℚ × ℚ, (∀ m ∈ l, m.movement_type ∈ inflowTypes) →
      (l.foldl replayStep acc).1 = acc.1 + (l.map (·.quantity)).sum := by
  induction l with
  | nil => intro acc _; simp
  | cons m ms ih =>
    intro acc hin
    simp only [List.foldl_cons, List.map_cons, List.sum_cons]
    rw [ih _ (fun x hx => hin x (List.mem_cons_of_mem _ hx)),
      replayStep_inflow _ _ (hin m (List.mem_cons_self _ _))]
    dsimp only
    ring

end QuantumFinanceAI

namespace QuantumFinanceAI

/-- C1: during ledger replay, every inflow movement (receipt,
production_receipt, transfer_in, adjustment) updates the accumulator by
`new_qty = running_qty + quantity` and
`new_value = running_value + quantity * unit_cost`; the returned
average cost equals `running_value / running_qty` whenever the final
running quantity is positive; and replaying receipt(qty=100, cost=10) then
receipt(qty=100, cost=20) yields qty 200, average cost 15, value 3000. -/
theorem costing_inflow_update :
    (∀ (acc : ℚ × ℚ) (m : StockMovement), m.movement_type ∈ inflowTypes →
        replayStep acc m = (acc.1 + m.quantity, acc.2 + m.quantity * m.unit_cost))
    ∧ (∀ ledger : List StockMovement, 0 < (replay ledger).1 →
        (calculate_inventory_valuation ledger).average_cost
          = (replay ledger).2 / (replay ledger).1)
    ∧ calculate_inventory_valuation
        [⟨"receipt", 100, 10⟩, ⟨"receipt", 100, 20⟩]
        = ⟨200, 15, 3000⟩ := by
  refine ⟨replayStep_inflow, ?_, ?_⟩
  · intro ledger h
    simp [calculate_inventory_valuation, h]
  · norm_num [calculate_inventory_valuation, replay, replayStep, inflowTypes]

/-- Witness for C1: a concrete inflow step and a concrete average cost. -/
theorem costing_inflow_update_witness :
    replayStep (1, 2) ⟨"transfer_in", 3, 4⟩ = (4, 14)
    ∧ (calculate_inventory_valuation [⟨"receipt", 2, 6⟩]).average_cost = 6 := by
  constructor
  · rw [costing_inflow_update.1 (1, 2) ⟨"transfer_in", 3, 4⟩ (by decide)]
    norm_num
  · rw [costing_inflow_update.2.1 [⟨"receipt", 2, 6⟩]
      (by norm_num [replay, replayStep, inflowTypes])]
    norm_num [replay, replayStep, inflowTypes]

/-- C3: an outflow movement (issue, transfer_out, production_issue) whose
quantity exceeds the current running quantity is silently skipped: the
accumulator is unchanged, and the (total) replay function raises nothing. -/
theorem outflow_insufficient_silently_skipped (acc : ℚ × ℚ) (m : StockMovement)
    (hm : m.movement_type ∈ outflowTypes) (hq : acc.1 < m.quantity) :
    replayStep acc m = acc :=
  replayStep_outflow_skip acc m (outflow_not_inflow hm) hq

/-- Witness for C3: issuing 5 with only 2 on hand leaves the accumulator
untouched. -/
theorem outflow_insufficient_silently_skipped_witness :
    replayStep (2, 10) ⟨"issue", 5, 0⟩ = (2, 10) :=
  outflow_insufficient_silently_skipped (2, 10) ⟨"issue", 5, 0⟩
    (by decide) (by norm_num)

/-- C4: for a ledger of well-formed movements with non-negative quantities
in which no outflow exceeds the running quantity at its point in the replay,
the running quantity is non-negative after every step (every prefix of the
replay). -/
theorem replay_qty_nonneg (l : List StockMovement)
    (_hw : ∀ m ∈ l, m.movement_type ∈ recognizedTypes)
    (hq : ∀ m ∈ l, 0 ≤ m.quantity)
    (_hout : ∀ i : ℕ, (hi : i < l.length) →
      (l.get ⟨i, hi⟩).movement_type ∈ outflowTypes →
      (l.get ⟨i, hi⟩).quantity ≤ (replay (l.take i)).1) :
    ∀ i : ℕ, i ≤ l.length → 0 ≤ (replay (l.take i)).1 := by
  intro i _
  exact foldl_replayStep_qty_nonneg _ _ le_rfl
    (fun m hm => hq m (List.mem_of_mem_take hm))

/-- Witness for C4: a two-movement ledger satisfying all three hypotheses. -/
theorem replay_qty_nonneg_witness :
    0 ≤ (replay ([⟨"receipt", 5, 1⟩, ⟨"issue", 3, 0⟩].take 2)).1 :=
  replay_qty_nonneg [⟨"receipt", 5, 1⟩, ⟨"issue", 3, 0⟩]
    (by decide)
    (by intro m hm; fin_cases hm <;> norm_num)
    (by
      intro i hi hm
      match i, hi, hm with
      | 0, _, hm =>
        have hm2 : ("receipt" : String) ∈ outflowTypes := hm
        exact absurd hm2 (by decide)
      | 1, _, _ =>
        show (3 : ℚ) ≤ (replay [⟨"receipt", 5, 1⟩]).1
        norm_num [replay, replayStep, inflowTypes]
      | n + 2, hi, _ =>
        simp only [List.length_cons, List.length_nil] at hi
        omega)
    2 (by decide)

/-- C5: from the empty accumulator, an inflow of quantity `q > 0` at unit
cost `c` followed immediately by a matching outflow of `q` returns the
accumulator exactly to `(0, 0)` in exact arithmetic. -/
theorem inflow_then_full_outflow_zeroes (q c c2 : ℚ) (tin tout : String)
    (hq : 0 < q) (hin : tin ∈ inflowTypes) (hout : tout ∈ outflowTypes) :
    replay [⟨tin, q, c⟩, ⟨tout, q, c2⟩] = (0, 0) := by
  have hq0 : q ≠ 0 := ne_of_gt hq
  have h1 : replayStep (0, 0) ⟨tin, q, c⟩ = (q, q * c) := by
    rw [replayStep_inflow _ _ hin]
    norm_num
  have h2 : replayStep (q, q * c) ⟨tout, q, c2⟩ = (0, 0) := by
    rw [replayStep_outflow_exec _ _ (outflow_not_inflow hout) le_rfl, if_pos hq]
    rw [Prod.ext_iff]
    constructor
    · exact sub_self q
    · field_simp
  show replayStep (replayStep (0, 0) ⟨tin, q, c⟩) ⟨tout, q, c2⟩ = (0, 0)
  rw [h1, h2]

/-- Witness for C5: inflow of 7 at cost 3, then outflow of 7, lands on
`(0, 0)`. -/
theorem inflow_then_full_outflow_zeroes_witness :
    replay [⟨"production_receipt", 7, 3⟩, ⟨"transfer_out", 7, 0⟩] = (0, 0) :=
  inflow_then_full_outflow_zeroes 7 3 0 "production_receipt" "transfer_out"
    (by norm_num) (by decide) (by decide)

/-- Counterexample for C9: a movement with the unrecognized type
"cycle_count" is NOT silently dropped by the replay — it is processed by the
outflow branch, which deducts its quantity at the current average cost. -/
theorem unknown_type_processed_counterexample :
    replay [⟨"receipt", 10, 1⟩, ⟨"cycle_count", 5, 0⟩]
      ≠ replay [⟨"receipt", 10, 1⟩]
    ∧ replay [⟨"receipt", 10, 1⟩, ⟨"cycle_count", 5, 0⟩] = (5, 5) := by
  have hcc : ("cycle_count" : String) ∉ inflowTypes := by decide
  have hrc : ("receipt" : String) ∈ inflowTypes := by decide
  have h1 : replay [⟨"receipt", 10, 1⟩, ⟨"cycle_count", 5, 0⟩] = (5, 5) := by
    norm_num [replay, replayStep, hrc, hcc]
  have h2 : replay [⟨"receipt", 10, 1⟩] = (10, 10) := by
    norm_num [replay, replayStep, inflowTypes]
  refine ⟨?_, h1⟩
  rw [h1, h2]
  intro hc
  rw [Prod.ext_iff] at hc
  exact absurd hc.1 (by norm_num)

/-- C9 (amended): a movement whose type is not among the seven recognized
ones falls into the `else` (outflow) branch: its quantity is deducted at the
current average cost when it does not exceed the running quantity, and the
movement is silently skipped otherwise; no error is raised either way. -/
theorem unknown_type_outflow_branch (acc : ℚ × ℚ) (m : StockMovement)
    (hm : m.movement_type ∉ recognizedTypes) :
    (m.quantity ≤ acc.1 →
      replayStep acc m
        = (acc.1 - m.quantity,
           acc.2 - m.quantity * (if 0 < acc.1 then acc.2 / acc.1 else 0)))
    ∧ (acc.1 < m.quantity → replayStep acc m = acc) := by
  have hni : m.movement_type ∉ inflowTypes := fun h => hm (inflow_recognized h)
  exact ⟨fun hge => replayStep_outflow_exec acc m hni hge,
    fun hlt => replayStep_outflow_skip acc m hni hlt⟩

/-- Witness for C9 (amended): an unrecognized movement of quantity 4 against
a running state of (10, 10) is deducted at average cost 1. -/
theorem unknown_type_outflow_branch_witness :
    replayStep (10, 10) ⟨"cycle_count", 4, 9⟩ = (6, 6) := by
  rw [(unknown_type_outflow_branch (10, 10) ⟨"cycle_count", 4, 9⟩
    (by decide)).1 (by norm_num)]
  norm_num

/-- C10: an 'adjustment' movement is always processed by the inflow branch,
adding its signed quantity with no non-negativity check; in particular a
single adjustment of quantity −5 yields a snapshot with strictly negative
on-hand quantity. -/
theorem adjustment_inflow_negative_qty :
    (∀ (acc : ℚ × ℚ) (m : StockMovement), m.movement_type = "adjustment" →
        replayStep acc m = (acc.1 + m.quantity, acc.2 + m.quantity * m.unit_cost))
    ∧ (calculate_inventory_valuation [⟨"adjustment", -5, 2⟩]).current_qty < 0 := by
  constructor
  · intro acc m hm
    exact replayStep_inflow acc m (by rw [hm]; decide)
  · norm_num [calculate_inventory_valuation, replay, replayStep, inflowTypes]

/-- Witness for C10: a concrete adjustment step through the inflow branch. -/
theorem adjustment_inflow_negative_qty_witness :
    replayStep (3, 4) ⟨"adjustment", 2, 5⟩ = (5, 14) := by
  rw [adjustment_inflow_negative_qty.1 (3, 4) ⟨"adjustment", 2, 5⟩ rfl]
  norm_num

end QuantumFinanceAI

namespace QuantumFinanceAI

/-- Counterexample for C2: on a ledger holding a single 'issue' movement of
quantity 5, the Reorder Advisor's raw quantity sum reports 5 while the
Costing Engine replay (which silently skips the insufficient outflow)
reports 0 on hand: the two aggregates are not equal. -/
theorem reorder_stock_counterexample :
    reorder_current_stock [⟨"issue", 5, 1⟩]
      ≠ (calculate_inventory_valuation [⟨"issue", 5, 1⟩]).current_qty := by
  have hni : ("issue" : String) ∉ inflowTypes := by decide
  have h1 : reorder_current_stock [⟨"issue", 5, 1⟩] = 5 := by
    norm_num [reorder_current_stock]
  have h2 : (calculate_inventory_valuation [⟨"issue", 5, 1⟩]).current_qty = 0 := by
    norm_num [calculate_inventory_valuation, replay, replayStep, hni]
  rw [h1, h2]
  norm_num

/-- C2 (amended): the `current_stock` the Reorder Advisor emits is the plain
sum of the `quantity` fields of the product's movement rows (the SQL
`Sum('quantity')`), not the Costing Engine replay; the two figures agree on
ledgers made only of inflow-type movements, and differ in general. -/
theorem reorder_stock_plain_sum :
    (∀ (p : Product) (s : ReorderSuggestion), suggestFor p = some s →
        s.current_stock = reorder_current_stock p.ledger)
    ∧ (∀ ledger : List StockMovement,
        (∀ m ∈ ledger, m.movement_type ∈ inflowTypes) →
        reorder_current_stock ledger
          = (calculate_inventory_valuation ledger).current_qty) := by
  constructor
  · intro p s hs
    simp only [suggestFor] at hs
    split at hs
    · injection hs with h2
      subst h2
      rfl
    · exact Option.noConfusion hs
  · intro ledger hin
    show (ledger.map (·.quantity)).sum
      = (calculate_inventory_valuation ledger).current_qty
    simp only [calculate_inventory_valuation, replay]
    rw [foldl_replayStep_inflow_sum ledger (0, 0) hin]
    norm_num

/-- Witness for C2 (amended): a one-receipt ledger on which both stock
figures are 3. -/
theorem reorder_stock_plain_sum_witness :
    reorder_current_stock [⟨"receipt", 3, 2⟩]
      = (calculate_inventory_valuation [⟨"receipt", 3, 2⟩]).current_qty :=
  reorder_stock_plain_sum.2 [⟨"receipt", 3, 2⟩]
    (by intro m hm; fin_cases hm; decide)

/-- C8: for every active product of the input list, the advisor's loop body
produces a suggestion iff `current_stock ≤ reorder_point`; any produced
suggestion appears in the advisor's output and satisfies
`shortage = reorder_point − current_stock`,
`suggested_order_qty = max(shortage, reorder_point * 2)`,
`estimated_cost = suggested_order_qty * standard_cost`, and
`urgency = HIGH` exactly when `current_stock ≤ 0` (else MEDIUM). -/
theorem reorder_suggestion_spec (ps : List Product) (p : Product)
    (hmem : p ∈ ps) (hact : p.is_active = true) :
    ((suggestFor p).isSome
      ↔ reorder_current_stock p.ledger ≤ (p.reorder_point : ℚ))
    ∧ (∀ s : ReorderSuggestion, suggestFor p = some s →
        s ∈ generate_reorder_suggestions ps
        ∧ s.current_stock = reorder_current_stock p.ledger
        ∧ s.shortage = (p.reorder_point : ℚ) - s.current_stock
        ∧ s.suggested_order_qty = max s.shortage ((p.reorder_point : ℚ) * 2)
        ∧ s.estimated_cost = s.suggested_order_qty * p.standard_cost
        ∧ s.urgency = (if s.current_stock ≤ 0 then "HIGH" else "MEDIUM")) := by
  constructor
  · simp only [suggestFor]
    by_cases h : reorder_current_stock p.ledger ≤ (p.reorder_point : ℚ) <;>
      simp [h]
  · intro s hs
    have hout : s ∈ generate_reorder_suggestions ps := by
      unfold generate_reorder_suggestions
      rw [List.mem_mergeSort]
      exact List.mem_filterMap.mpr ⟨p, List.mem_filter.mpr ⟨hmem, hact⟩, hs⟩
    refine ⟨hout, ?_⟩
    simp only [suggestFor] at hs
    split at hs
    · injection hs with h2
      subst h2
      exact ⟨rfl, rfl, rfl, rfl, rfl⟩
    · exact Option.noConfusion hs

/-- Witness for C8: one active product whose stock (5) equals its reorder
point (5); the loop body fires. -/
theorem reorder_suggestion_spec_witness :
    ((⟨"SKU1", "Widget", 5, 2, true, [⟨"receipt", 5, 1⟩]⟩ : Product)
        ∈ [(⟨"SKU1", "Widget", 5, 2, true, [⟨"receipt", 5, 1⟩]⟩ : Product)])
    ∧ ((suggestFor ⟨"SKU1", "Widget", 5, 2, true, [⟨"receipt", 5, 1⟩]⟩).isSome
        ↔ reorder_current_stock [⟨"receipt", 5, 1⟩] ≤ (((5 : ℤ) : ℚ))) :=
  ⟨List.mem_singleton.mpr rfl,
    (reorder_suggestion_spec _ _ (List.mem_singleton.mpr rfl) rfl).1⟩

end QuantumFinanceAI

namespace QuantumFinanceAI

/-! ### Helper lemmas about the ABC classifier -/

theorem abcLe_trans : ∀ a b c : AbcRow,
    abcLe a b = true → abcLe b c = true → abcLe a c = true := by
  intro a b c hab hbc
  simp only [abcLe, decide_eq_true_eq] at *
  exact le_trans hbc hab

theorem abcLe_total : ∀ a b : AbcRow, (abcLe a b || abcLe b a) = true := by
  intro a b
  simp only [abcLe, Bool.or_eq_true, decide_eq_true_eq]
  exact le_total b.total_value a.total_value

theorem abcScan_map_value (total : ℚ) :
    ∀ (rs : List AbcRow) (cumulative : ℚ),
      (abcScan total cumulative rs).map (·.inventory_value)
        = rs.map (·.total_value) := by
  intro rs
  induction rs with
  | nil => intro c; rfl
  | cons r rs ih => intro c; simp [abcScan, ih]

theorem abcScan_length (total cumulative : ℚ) (rs : List AbcRow) :
    (abcScan total cumulative rs).length = rs.length := by
  have h := congrArg List.length (abcScan_map_value total rs cumulative)
  simpa using h

theorem abcScan_classification (total : ℚ) :
    ∀ (rs : List AbcRow) (cumulative : ℚ) (i : ℕ)
      (hi : i < (abcScan total cumulative rs).length),
      ((abcScan total cumulative rs).get ⟨i, hi⟩).classification
        = maxOneTotalClass
            (cumulative
              + (((abcScan total cumulative rs).take (i + 1)).map
                  (·.inventory_value)).sum)
            total := by
  intro rs
  induction rs with
  | nil => intro c i hi; simp [abcScan] at hi
  | cons r rs ih =>
    intro c i hi
    cases i with
    | zero => simp [abcScan, maxOneTotalClass]
    | succ j =>
      have hj : j < (abcScan total (c + r.total_value) rs).length := by
        simpa [abcScan] using hi
      have hrec := ih (c + r.total_value) j hj
      simp only [abcScan, List.get_cons_succ, List.take_succ_cons,
        List.map_cons, List.sum_cons]
      rw [hrec]
      congr 1
      ring

end QuantumFinanceAI

namespace QuantumFinanceAI

/-- C7: when ABC classification is requested on a non-empty set of valuation
rows whose total value is zero, the endpoint returns the explicit
"not performed" warning response — no entry is classified A, B or C (the
`notPerformed` result carries no entries), and no division is attempted. -/
theorem abc_zero_total_not_performed (rows : List AbcRow)
    (hne : rows ≠ [])
    (h0 : (rows.map (·.total_value)).sum = 0) :
    abc_analysis rows = .notPerformed rows.length := by
  have hperm : List.Perm (rows.mergeSort abcLe) rows := List.mergeSort_perm rows abcLe
  have hsum : ((rows.mergeSort abcLe).map (·.total_value)).sum
      = (rows.map (·.total_value)).sum := (hperm.map _).sum_eq
  have hlen : (rows.mergeSort abcLe).length = rows.length := hperm.length_eq
  simp [abc_analysis, hne, hsum, h0, hlen]

/-- Witness for C7: a single zero-valued row is answered with the
"not performed" result. -/
theorem abc_zero_total_not_performed_witness :
    abc_analysis [⟨"P1", 0⟩] = .notPerformed 1 :=
  abc_zero_total_not_performed [⟨"P1", 0⟩] (by simp) (by simp)

/-- Counterexample for C6: the code divides the cumulative value by
`max(total_value, 1)`, not by the grand total.  On the single product
valued 1/2 (total 1/2, nonzero) the cumulative percentage of the grand
total is 100, so the claimed rule assigns class C, but the code computes
(1/2)/1*100 = 50 and assigns class A. -/
theorem abc_grand_total_counterexample :
    abc_analysis [⟨"P1", 1/2⟩]
      = .performed [⟨"P1", 1/2, "A", 50⟩]
    ∧ specGrandTotalClass (1/2) (1/2) = "C"
    ∧ ("A" : String) ≠ "C" := by
  refine ⟨?_, ?_, by decide⟩
  · have hs : ([⟨"P1", 1/2⟩] : List AbcRow).mergeSort abcLe = [⟨"P1", 1/2⟩] :=
      List.mergeSort_singleton _
    simp only [abc_analysis, hs]
    norm_num [abcScan, abcClassify]
  · norm_num [specGrandTotalClass]

/-- C6 (amended): for every non-empty valuation with nonzero total value the
classifier sorts the rows descending by `total_value` and assigns each entry
the class determined by its cumulative value as a percentage of
`max(grand_total, 1)` (which is the percentage of the grand total whenever
that total is at least 1): A while that percentage is ≤ 80, B while ≤ 95,
C otherwise; three products valued 600, 300, 100 are classed A, B, C. -/
theorem abc_sorted_and_classified :
    (∀ cumulative total : ℚ, 1 ≤ total →
        maxOneTotalClass cumulative total = specGrandTotalClass cumulative total)
    ∧ (∀ rows : List AbcRow, rows ≠ [] →
        (rows.map (·.total_value)).sum ≠ 0 →
        ∃ entries : List AbcEntry,
          abc_analysis rows = .performed entries
          ∧ entries.length = rows.length
          ∧ List.Pairwise
              (fun a b : AbcEntry => b.inventory_value ≤ a.inventory_value)
              entries
          ∧ ∀ i : ℕ, (hi : i < entries.length) →
              (entries.get ⟨i, hi⟩).classification
                = maxOneTotalClass
                    (((entries.take (i + 1)).map (·.inventory_value)).sum)
                    ((rows.map (·.total_value)).sum))
    ∧ abc_analysis [⟨"P1", 600⟩, ⟨"P2", 300⟩, ⟨"P3", 100⟩]
        = .performed
            [⟨"P1", 600, "A", 60⟩, ⟨"P2", 300, "B", 90⟩,
              ⟨"P3", 100, "C", 100⟩] := by
  refine ⟨?_, ?_, ?_⟩
  · intro cumulative total ht
    simp only [maxOneTotalClass, specGrandTotalClass, abcClassify,
      max_eq_left ht]
  · intro rows hne h0
    have hperm : List.Perm (rows.mergeSort abcLe) rows := List.mergeSort_perm rows abcLe
    have hsum : ((rows.mergeSort abcLe).map (·.total_value)).sum
        = (rows.map (·.total_value)).sum := (hperm.map _).sum_eq
    refine ⟨abcScan ((rows.map (·.total_value)).sum) 0 (rows.mergeSort abcLe),
      ?_, ?_, ?_, ?_⟩
    · simp [abc_analysis, hne, hsum, h0]
    · rw [abcScan_length, hperm.length_eq]
    · have hsorted : List.Pairwise (fun a b : AbcRow => abcLe a b = true)
          (rows.mergeSort abcLe) :=
        List.sorted_mergeSort abcLe_trans abcLe_total rows
      have hsorted2 : List.Pairwise
          (fun a b : AbcRow => b.total_value ≤ a.total_value)
          (rows.mergeSort abcLe) :=
        hsorted.imp (fun hab => by simpa [abcLe] using hab)
      have hvals : List.Pairwise (fun x y : ℚ => y ≤ x)
          ((rows.mergeSort abcLe).map (·.total_value)) :=
        (List.pairwise_map).2 hsorted2
      rw [← abcScan_map_value ((rows.map (·.total_value)).sum) _ 0] at hvals
      exact (List.pairwise_map).1 hvals
    · intro i hi
      have h := abcScan_classification ((rows.map (·.total_value)).sum)
        (rows.mergeSort abcLe) 0 i hi
      rw [h, zero_add]
  · have hsorted : List.Pairwise (fun a b : AbcRow => abcLe a b = true)
        ([⟨"P1", 600⟩, ⟨"P2", 300⟩, ⟨"P3", 100⟩] : List AbcRow) := by
      norm_num [List.pairwise_cons, abcLe]
    have hs := List.mergeSort_of_sorted hsorted
    simp only [abc_analysis, hs]
    norm_num [abcScan, abcClassify]

/-- Witness for C6 (amended): two rows valued 4 and 1 (total 5 ≥ 1); the
amended classification clause is exercised at a concrete valuation. -/
theorem abc_sorted_and_classified_witness :
    maxOneTotalClass 3 5 = specGrandTotalClass 3 5
    ∧ ∃ entries : List AbcEntry,
        abc_analysis [⟨"P1", 4⟩, ⟨"P2", 1⟩] = .performed entries
        ∧ entries.length = ([⟨"P1", 4⟩, ⟨"P2", 1⟩] : List AbcRow).length
        ∧ List.Pairwise
            (fun a b : AbcEntry => b.inventory_value ≤ a.inventory_value)
            entries
        ∧ ∀ i : ℕ, (hi : i < entries.length) →
            (entries.get ⟨i, hi⟩).classification
              = maxOneTotalClass
                  (((entries.take (i + 1)).map (·.inventory_value)).sum)
                  ((([⟨"P1", 4⟩, ⟨"P2", 1⟩] : List AbcRow).map
                      (·.total_value)).sum) :=
  ⟨abc_sorted_and_classified.1 3 5 (by norm_num),
    abc_sorted_and_classified.2.1 [⟨"P1", 4⟩, ⟨"P2", 1⟩] (by simp)
      (by norm_num)⟩

end QuantumFinanceAI
